import Mathlib

/-!
Verification of the Arugot scheduler + workflow-runner core.

Shallow embedding of:
* `src/runner/state.py`   — the State Store (`load_state`, `save_state`);
* `src/runner/runner.py`  — the Runner (`Runner.run`);
* `src/scheduler/scheduler.py` — the Scheduler (`_should_run`,
  `_create_context`, the per-tick job loop of `Scheduler.run`).

Files are modelled as parsed JSON documents (or an `invalid` marker for
unparseable content); instants are integer seconds since the Unix epoch;
timezones are fixed offsets in minutes (the claims under verification only
use UTC).  Cron evaluation (the external `croniter` library) is modelled
from the spec's "standard 5-field cron semantics".
-/

namespace Arugot

/-- JSON values.  Numbers are modelled as integers (the claims involve only
integer payloads); objects are association lists in insertion order, as
produced by Python dicts. -/
inductive JValue where
  | null : JValue
  | bool (b : Bool) : JValue
  | num (n : Int) : JValue
  | str (s : String) : JValue
  | arr (xs : List JValue) : JValue
  | obj (kvs : List (String × JValue)) : JValue

/-- Lookup of a key in a JSON object association list (first occurrence,
as in a Python dict that never holds duplicates). -/
def jlookup (kvs : List (String × JValue)) (k : String) : Option JValue :=
  match kvs with
  | [] => none
  | (k', v) :: rest => if k' = k then some v else jlookup rest k

/-- Whether a JSON object association list has a key
(Python `"k" in state`). -/
def jhasKey (kvs : List (String × JValue)) (k : String) : Bool :=
  match kvs with
  | [] => false
  | (k', _) :: rest => k' = k || jhasKey rest k

/-- Content of a file in the state directory: a parsed JSON document, or
unparseable bytes (which `json.load` rejects with `JSONDecodeError`). -/
inductive FileContent where
  | json (v : JValue) : FileContent
  | invalid : FileContent

/-- The state directory, as a map from file name to content
(`none` = file does not exist). -/
def FS : Type := String → Option FileContent

/-- Write (or delete, with `none`) one file. -/
def fsSet (fs : FS) (p : String) (c : Option FileContent) : FS :=
  fun q => if q = p then c else fs q

/-- `state_file = state_dir / f"{workflow}.json"` (relative to the state
directory). -/
def stateFile (workflow : String) : String := workflow ++ ".json"

/-- `temp_file = state_dir / f"{workflow}.json.tmp"`. -/
def tempFile (workflow : String) : String := workflow ++ ".json.tmp"

/-- Errors raised by `load_state`. -/
inductive LoadError where
  | jsonDecode    -- `json.JSONDecodeError`, re-raised
  | notObject     -- "must contain a JSON object"
  | missingVersion -- "is missing 'version' field"
  | missingData   -- "is missing 'data' field"
deriving DecidableEq, Repr

/-- `load_state` from `src/runner/state.py`: returns `{}` when the file
does not exist; raises on invalid JSON, a non-object document, or a
document missing the `version` or `data` key; otherwise returns
`state["data"]`. -/
def load_state (fs : FS) (workflow : String) : Except LoadError JValue :=
  match fs (stateFile workflow) with
  | none => .ok (JValue.obj [])
  | some .invalid => .error .jsonDecode
  | some (.json state) =>
    match state with
    | .obj kvs =>
      if jhasKey kvs "version" = false then .error .missingVersion
      else if jhasKey kvs "data" = false then .error .missingData
      else
        match jlookup kvs "data" with
        | some d => .ok d
        | none => .error .missingData
    | _ => .error .notObject

/-- The envelope `{"version": 1, "data": data}` written by `save_state`. -/
def envelope (data : JValue) : JValue :=
  JValue.obj [("version", JValue.num 1), ("data", data)]

/-- Injected failure points for `save_state`: an exception during the
temp-file write, or during the atomic rename. -/
inductive FailPoint where
  | writeTmp
  | rename
deriving DecidableEq, Repr

/-- `save_state` from `src/runner/state.py`: write the envelope to
`{workflow}.json.tmp`, then atomically rename it over `{workflow}.json`.
On a failure at either step the temp file is unlinked and the error
propagates.  `failAt` injects the failure.  Returns the outcome together
with the resulting state directory. -/
def save_state (fs : FS) (workflow : String) (data : JValue)
    (failAt : Option FailPoint) : Except Unit Unit × FS :=
  match failAt with
  | some .writeTmp =>
    -- `temp_file.open("w")` truncated/created the temp file, the dump
    -- raised, and the cleanup branch unlinked the temp file
    (.error (), fsSet fs (tempFile workflow) none)
  | some .rename =>
    -- the temp file was written in full, `temp_file.replace` raised, and
    -- the cleanup branch unlinked the temp file
    let fs1 := fsSet fs (tempFile workflow) (some (.json (envelope data)))
    (.error (), fsSet fs1 (tempFile workflow) none)
  | none =>
    -- `temp_file.replace(state_file)` atomically renames the temp file
    -- over the state file, removing the temp path
    let fs1 := fsSet fs (tempFile workflow) (some (.json (envelope data)))
    let fs2 := fsSet fs1 (stateFile workflow) (some (.json (envelope data)))
    (.ok (), fsSet fs2 (tempFile workflow) none)

/-! ### Cron evaluation

Modelled from the spec: the repository evaluates cron expressions through
the external `croniter` library, which is not under `src/`; the spec
prescribes "standard 5-field cron semantics" at minute granularity,
"compute the next scheduled fire time strictly after `last_run`".
Timezones are modelled as fixed offsets in minutes east of UTC (every
claim under verification uses UTC, offset 0); instants are seconds since
the Unix epoch. -/

/-- One field of a 5-field cron expression: either `*` (`any`) or an
explicit list of admissible values (the expansion of lists/ranges/steps). -/
structure CronField where
  any : Bool
  vals : List Nat

/-- Does value `n` satisfy the field? -/
def CronField.mem (f : CronField) (n : Nat) : Bool :=
  f.any || f.vals.contains n

/-- A parsed 5-field cron expression: minute, hour, day-of-month, month,
day-of-week. -/
structure CronExpr where
  minute : CronField
  hour : CronField
  dom : CronField
  month : CronField
  dow : CronField

/-- Gregorian civil date (year, month 1..12, day 1..31) from a count of
days since 1970-01-01 (Hinnant's `civil_from_days`). -/
def civilFromDays (z0 : Int) : Int × Nat × Nat :=
  let z := z0 + 719468
  -- `/` on Int is Euclidean division, i.e. floor division for the
  -- positive divisor, so no truncation adjustment is needed
  let era : Int := z / 146097
  let doe : Nat := (z - era * 146097).toNat
  let yoe : Nat := (doe - doe / 1460 + doe / 36524 - doe / 146096) / 365
  let doy : Nat := doe - (365 * yoe + yoe / 4 - yoe / 100)
  let mp : Nat := (5 * doy + 2) / 153
  let d : Nat := doy - (153 * mp + 2) / 5 + 1
  let m : Nat := if mp < 10 then mp + 3 else mp - 9
  let y : Int := (yoe : Int) + era * 400
  (if m ≤ 2 then y + 1 else y, m, d)

/-- Day of week (0 = Sunday .. 6 = Saturday) of a count of days since
1970-01-01 (which was a Thursday). -/
def dayOfWeek (days : Int) : Nat := ((days + 4) % 7).toNat

/-- Does the local wall-clock minute with index `m` (minutes since the
epoch of the local clock) match the cron expression?  Standard semantics:
minute, hour and month must all match; the day constraint is the OR of
day-of-month and day-of-week when both are restricted, and the restricted
one alone when the other is `*`. -/
def CronExpr.matchesMinute (e : CronExpr) (m : Int) : Bool :=
  let minute := (m % 60).toNat
  let hour := ((m / 60) % 24).toNat
  let days := m / 1440
  e.minute.mem minute && e.hour.mem hour &&
    (let md := civilFromDays days
     e.month.mem md.2.1 &&
       (if e.dom.any && e.dow.any then true
        else if e.dom.any then e.dow.mem (dayOfWeek days)
        else if e.dow.any then e.dom.mem md.2.2
        else e.dom.mem md.2.2 || e.dow.mem (dayOfWeek days)))

/-- Linear search for the first UTC minute index `u ≥` the start whose
local wall-clock minute `u + off` matches the expression; `fuel` bounds
the search. -/
def nextFireFromUTC (e : CronExpr) (off : Int) : Nat → Int → Option Int
  | 0, _ => none
  | fuel + 1, u =>
    if e.matchesMinute (u + off) then some u
    else nextFireFromUTC e off fuel (u + 1)

/-- Search horizon in minutes (about five years).  The external croniter
search is unbounded; the horizon is a model artifact and is never reached
by any schedule whose gap between fires is below it. -/
def searchHorizon : Nat := 2635200

/-- The first cron fire instant strictly after `lastRun` (both in seconds
UTC): cron fire instants are whole minutes of the local clock, hence whole
UTC minutes for whole-minute offsets. -/
def nextFireSec (e : CronExpr) (off : Int) (lastRun : Int) : Option Int :=
  match nextFireFromUTC e off searchHorizon (lastRun / 60 + 1) with
  | some u => some (60 * u)
  | none => none

/-- `Scheduler._should_run` from `src/scheduler/scheduler.py`: the
last-run cursor defaults to the epoch when absent; the job is due at
`now` iff `now` has reached the first cron fire time strictly after the
cursor. -/
def should_run (e : CronExpr) (off : Int) (lastRun : Option Int)
    (now : Int) : Bool :=
  let lr := lastRun.getD 0
  match nextFireSec e off lr with
  | some nf => decide (nf ≤ now)
  | none => false

/-- A cron field that is `*`. -/
def wild : CronField := ⟨true, []⟩

/-- A cron field restricted to an explicit value list. -/
def onlyVals (ns : List Nat) : CronField := ⟨false, ns⟩

/-- The hourly expression `"0 * * * *"`. -/
def hourlyCron : CronExpr := ⟨onlyVals [0], wild, wild, wild, wild⟩

/-! ### Run context and Runner (`src/common/types.py`, `src/runner/runner.py`) -/

/-- `Trigger` from `src/common/types.py`: a tag
(`manual | interval | once | scheduled`) and a parameter mapping. -/
structure Trigger where
  type : String
  params : List (String × String)

/-- `RunContext` from `src/common/types.py`; `dry_run` defaults to
`false` as in the dataclass.  `started_at` is an instant in seconds UTC. -/
structure RunContext where
  workflow : String
  trigger : Trigger
  run_id : String
  started_at : Int
  args : List (String × String)
  dry_run : Bool := false

/-- Result of invoking a workflow's `run(context, state)`: a returned
value, or a raised exception. -/
inductive WfResult where
  | ok (v : JValue) : WfResult
  | raise : WfResult

/-- A loaded `workflows.<name>` module, which may or may not define a
`run` attribute. -/
structure Module where
  runFn : Option (RunContext → JValue → WfResult)

/-- The import system restricted to `workflows.*`:
`importlib.import_module(f"workflows.{name}")` yields a module or raises
`ImportError`. -/
def Registry : Type := String → Option Module

/-- Whether a Python value is a `dict` (`isinstance(new_state, dict)`). -/
def JValue.isDict : JValue → Bool
  | .obj _ => true
  | _ => false

/-- Errors raised out of `Runner.run`, one per raise site. -/
inductive RunnerError where
  | workflowNotFound          -- RuntimeError "Workflow '<w>' not found"
  | noRunFunction             -- RuntimeError "... does not define a run(...)"
  | loadFailed (e : LoadError) -- propagated from load_state
  | workflowRaised            -- exception from the workflow body
  | nonDictState              -- RuntimeError "... returned non-dict state"
  | saveFailed                -- propagated from save_state
deriving DecidableEq, Repr

/-- State Store operations, recorded in invocation order. -/
inductive StoreOp where
  | load
  | save
deriving DecidableEq, Repr

/-- `Runner.run` from `src/runner/runner.py`: resolve the module, check
for `run`, load state, invoke the workflow, validate the returned value
is a dict, then persist (or skip persisting under dry-run).  Returns the
outcome, the resulting state directory, and the trace of State Store
calls. -/
def Runner.run (reg : Registry) (ctx : RunContext) (fs : FS)
    (failAt : Option FailPoint) :
    Except RunnerError Unit × FS × List StoreOp :=
  match reg ctx.workflow with
  | none => (.error .workflowNotFound, fs, [])
  | some md =>
    match md.runFn with
    | none => (.error .noRunFunction, fs, [])
    | some wf =>
      match load_state fs ctx.workflow with
      | .error e => (.error (.loadFailed e), fs, [.load])
      | .ok st =>
        match wf ctx st with
        | .raise => (.error .workflowRaised, fs, [.load])
        | .ok newState =>
          if newState.isDict = false then
            (.error .nonDictState, fs, [.load])
          else if ctx.dry_run then
            (.ok (), fs, [.load])
          else
            match save_state fs ctx.workflow newState failAt with
            | (.ok _, fs') => (.ok (), fs', [.load, .save])
            | (.error _, fs') => (.error .saveFailed, fs', [.load, .save])

/-! ### Scheduler (`src/scheduler/scheduler.py`) -/

/-- `SchedulerConfig`: one registered job, as the scheduler stores it. -/
structure SchedulerConfig where
  workflow : String
  cron_expression : String
  timezone : String

/-- A registered job paired with the model meaning of its fields: the
parsed 5-field expression for `cron_expression` (parsing lives in the
external croniter) and the fixed offset in minutes for `timezone`. -/
structure Job where
  config : SchedulerConfig
  cron : CronExpr
  tzOffset : Int

/-- `Scheduler._create_context`: the RunContext for a scheduled
execution.  The ambient effects — the fresh UUID and the
`datetime.now(tz)` instant with its ISO text — are passed as parameters.
`dry_run` is not passed, so the dataclass default applies. -/
def create_context (config : SchedulerConfig) (run_id : String)
    (triggered_at : Int) (triggeredAtIso : String) : RunContext :=
  { workflow := config.workflow
    trigger := { type := "scheduled"
                 params := [("schedule", config.cron_expression),
                            ("triggered_at", triggeredAtIso),
                            ("timezone", config.timezone)] }
    run_id := run_id
    started_at := triggered_at
    args := [] }

/-- Ambient effects observed during one tick, per workflow name: the
fresh UUID, the `datetime.now(tz)` instant seen when building the context
(with its ISO text), and the later `datetime.now(tz)` instant seen at the
cursor update after the runner returns. -/
structure TickEnv where
  runId : String → String
  trigTime : String → Int
  trigIso : String → String
  doneTime : String → Int

/-- Outcome of one job in one tick. -/
inductive JobOutcome where
  | notDue
  | ranOk
  | ranFailed
deriving DecidableEq, Repr

/-- The body of `for workflow in self.jobs` in `Scheduler.run`: check
due-ness; when due, build the context and call the runner; advance the
cursor only when the runner call returned, since a raising runner jumps
to the per-job `except` block, skipping the update. -/
def tickJob (env : TickEnv) (runnerRaises : RunContext → Bool) (now : Int)
    (lastRun : String → Option Int) (j : Job) :
    (String → Option Int) × JobOutcome :=
  if should_run j.cron j.tzOffset (lastRun j.config.workflow) now then
    let ctx := create_context j.config (env.runId j.config.workflow)
      (env.trigTime j.config.workflow) (env.trigIso j.config.workflow)
    if runnerRaises ctx then
      -- the exception is caught and logged at the per-job boundary;
      -- `self.last_run[workflow] = ...` is never reached
      (lastRun, .ranFailed)
    else
      (fun w => if w = j.config.workflow
         then some (env.doneTime j.config.workflow) else lastRun w,
       .ranOk)
  else (lastRun, .notDue)

/-- One full tick: the `for workflow in self.jobs` loop, processing every
registered job in order; a per-job failure never stops the iteration. -/
def tick (env : TickEnv) (runnerRaises : RunContext → Bool) (now : Int) :
    List Job → (String → Option Int) →
    (String → Option Int) × List (String × JobOutcome)
  | [], lastRun => (lastRun, [])
  | j :: rest, lastRun =>
    let r1 := tickJob env runnerRaises now lastRun j
    let r2 := tick env runnerRaises now rest r1.1
    (r2.1, (j.config.workflow, r1.2) :: r2.2)

/-- The `while self.running` loop of `Scheduler.run`, over an explicit
list of tick instants with their ambient effects (one entry per iteration
until shutdown). -/
def schedLoop (runnerRaises : RunContext → Bool) (jobs : List Job) :
    List (Int × TickEnv) → (String → Option Int) →
    (String → Option Int) × List (List (String × JobOutcome))
  | [], lastRun => (lastRun, [])
  | (now, env) :: rest, lastRun =>
    let r1 := tick env runnerRaises now jobs lastRun
    let r2 := schedLoop runnerRaises jobs rest r1.1
    (r2.1, r1.2 :: r2.2)

/-! ### Helper lemmas -/

theorem stateFile_ne_tempFile (w : String) : stateFile w ≠ tempFile w := by
  intro h
  have h2 := congrArg String.length h
  have h5 : (".json" : String).length = 5 := rfl
  have h9 : (".json.tmp" : String).length = 9 := rfl
  simp only [stateFile, tempFile, String.length_append, h5, h9] at h2
  omega

theorem jhasKey_eq_isSome (kvs : List (String × JValue)) (k : String) :
    jhasKey kvs k = (jlookup kvs k).isSome := by
  induction kvs with
  | nil => rfl
  | cons p rest ih =>
    obtain ⟨k', v⟩ := p
    by_cases h : k' = k <;> simp [jhasKey, jlookup, h, ih]

/-- `load_state` only inspects the workflow's state file. -/
theorem load_state_congr (fs fs' : FS) (w : String)
    (h : fs' (stateFile w) = fs (stateFile w)) :
    load_state fs' w = load_state fs w := by
  simp only [load_state, h]

/-! ### State Store theorems -/

/-- C3: after a successful `save_state w M`, `load_state w` returns
exactly `M`, and the persisted file for `w` holds the envelope with
`version = 1` and `data = M`. -/
theorem save_then_load_roundtrip (fs : FS) (w : String)
    (M : List (String × JValue)) :
    (save_state fs w (.obj M) none).1 = .ok () ∧
    load_state (save_state fs w (.obj M) none).2 w = .ok (.obj M) ∧
    (save_state fs w (.obj M) none).2 (stateFile w)
      = some (.json (envelope (.obj M))) := by
  have hfile : (save_state fs w (.obj M) none).2 (stateFile w)
      = some (.json (envelope (.obj M))) := by
    simp [save_state, fsSet, stateFile_ne_tempFile w]
  refine ⟨rfl, ?_, hfile⟩
  simp [load_state, hfile, envelope, jhasKey, jlookup]

/-- C4: `load_state` returns the empty mapping when no file exists, and
fails — with the matching error — on unparseable content, a non-object
document, a missing `version` field, or a missing `data` field. -/
theorem load_state_corrupt_detection (fs : FS) (w : String) :
    (fs (stateFile w) = none → load_state fs w = .ok (.obj [])) ∧
    (fs (stateFile w) = some .invalid →
      load_state fs w = .error .jsonDecode) ∧
    (∀ v : JValue, fs (stateFile w) = some (.json v) → v.isDict = false →
      load_state fs w = .error .notObject) ∧
    (∀ kvs : List (String × JValue),
      fs (stateFile w) = some (.json (.obj kvs)) →
      jhasKey kvs "version" = false →
      load_state fs w = .error .missingVersion) ∧
    (∀ kvs : List (String × JValue),
      fs (stateFile w) = some (.json (.obj kvs)) →
      jhasKey kvs "version" = true → jhasKey kvs "data" = false →
      load_state fs w = .error .missingData) := by
  refine ⟨?_, ?_, ?_, ?_, ?_⟩
  · intro h; simp [load_state, h]
  · intro h; simp [load_state, h]
  · intro v h hv
    cases v <;> simp_all [JValue.isDict] <;> simp [load_state, h]
  · intro kvs h hv; simp [load_state, h, hv]
  · intro kvs h hv hd
    have : jlookup kvs "data" = none := by
      rw [jhasKey_eq_isSome] at hd
      cases hj : jlookup kvs "data" with
      | none => rfl
      | some d => rw [hj] at hd; simp at hd
    simp [load_state, h, hv, hd, this]

/-- C5 (counterexample to the claim as stated): an envelope whose
`version` field holds the unrecognized value `2` is not rejected —
`load_state` returns its `data` field. -/
theorem load_state_accepts_unknown_version :
    load_state
      (fun p => if p = stateFile "report"
        then some (.json (.obj
          [("version", .num 2), ("data", .obj [("k", .num 1)])]))
        else none)
      "report" = .ok (.obj [("k", .num 1)]) := rfl

/-- C5 (amended): `load_state` checks only the *presence* of the
`version` field, never its value — a missing `version` fails, and any
envelope with `version` present (whatever its value) and a `data` field
has its `data` returned. -/
theorem load_state_version_presence_only (fs : FS) (w : String)
    (kvs : List (String × JValue))
    (hfile : fs (stateFile w) = some (.json (.obj kvs))) :
    (jhasKey kvs "version" = false →
      load_state fs w = .error .missingVersion) ∧
    (∀ d : JValue, jhasKey kvs "version" = true →
      jlookup kvs "data" = some d → load_state fs w = .ok d) := by
  constructor
  · intro hv; simp [load_state, hfile, hv]
  · intro d hv hd
    have hk : jhasKey kvs "data" = true := by
      rw [jhasKey_eq_isSome, hd]; rfl
    simp [load_state, hfile, hv, hk, hd]

/-- C6: a `save_state` failure injected at the temp-file write or at the
rename leaves the previously persisted state file untouched, removes the
temporary artifact, propagates the error, and a subsequent `load_state`
observes the prior state; a successful save also leaves no temp file. -/
theorem save_state_failure_atomic (fs : FS) (w : String) (M : JValue)
    (fp : FailPoint) :
    (save_state fs w M (some fp)).1 = .error () ∧
    (save_state fs w M (some fp)).2 (stateFile w) = fs (stateFile w) ∧
    (save_state fs w M (some fp)).2 (tempFile w) = none ∧
    load_state (save_state fs w M (some fp)).2 w = load_state fs w ∧
    (save_state fs w M none).2 (tempFile w) = none := by
  have hne := stateFile_ne_tempFile w
  have hmain : (save_state fs w M (some fp)).2 (stateFile w)
      = fs (stateFile w) := by
    cases fp <;> simp [save_state, fsSet, hne]
  refine ⟨?_, hmain, ?_, load_state_congr fs _ w hmain, ?_⟩
  · cases fp <;> rfl
  · cases fp <;> simp [save_state, fsSet]
  · simp [save_state, fsSet]

/-! ### Runner theorems -/

/-- C7: under `dry_run = true`, `Runner.run` leaves the state directory
untouched and never calls `save_state`, on every control path. -/
theorem runner_dry_run_pure (reg : Registry) (ctx : RunContext) (fs : FS)
    (failAt : Option FailPoint) (h : ctx.dry_run = true) :
    (Runner.run reg ctx fs failAt).2.1 = fs ∧
    StoreOp.save ∉ (Runner.run reg ctx fs failAt).2.2 := by
  unfold Runner.run
  cases hreg : reg ctx.workflow with
  | none => simp [hreg]
  | some md =>
    cases hfn : md.runFn with
    | none => simp [hreg, hfn]
    | some wf =>
      cases hl : load_state fs ctx.workflow with
      | error e => simp [hreg, hfn, hl]
      | ok st =>
        cases hw : wf ctx st with
        | raise => simp [hreg, hfn, hl, hw]
        | ok newState =>
          by_cases hd : newState.isDict = false
          · simp [hreg, hfn, hl, hw, hd]
          · simp [hreg, hfn, hl, hw, hd, h]

/-- C8: an unresolvable workflow name makes `Runner.run` fail with the
distinct "workflow not found" error, with no State Store call and the
state directory untouched. -/
theorem runner_unknown_workflow (reg : Registry) (ctx : RunContext)
    (fs : FS) (failAt : Option FailPoint) (h : reg ctx.workflow = none) :
    Runner.run reg ctx fs failAt = (.error .workflowNotFound, fs, []) := by
  simp [Runner.run, h]

/-- Any `Runner.run` that returns success with `dry_run = false` has
called `save_state` and left the envelope of some dict in the workflow's
state file. -/
theorem runner_success_persists (reg : Registry) (ctx : RunContext)
    (fs : FS) (failAt : Option FailPoint) (hdry : ctx.dry_run = false)
    (hok : (Runner.run reg ctx fs failAt).1 = .ok ()) :
    StoreOp.save ∈ (Runner.run reg ctx fs failAt).2.2 ∧
    ∃ d : JValue, (Runner.run reg ctx fs failAt).2.1 (stateFile ctx.workflow)
      = some (.json (envelope d)) := by
  unfold Runner.run at hok ⊢
  cases hreg : reg ctx.workflow with
  | none => simp only [hreg] at hok; exact absurd hok (by simp)
  | some md =>
    simp only [hreg] at hok ⊢
    cases hfn : md.runFn with
    | none => simp only [hfn] at hok; exact absurd hok (by simp)
    | some wf =>
      simp only [hfn] at hok ⊢
      cases hl : load_state fs ctx.workflow with
      | error e => simp only [hl] at hok; exact absurd hok (by simp)
      | ok st =>
        simp only [hl] at hok ⊢
        cases hw : wf ctx st with
        | raise => simp only [hw] at hok; exact absurd hok (by simp)
        | ok newState =>
          simp only [hw] at hok ⊢
          by_cases hd : newState.isDict = false
          · rw [if_pos hd] at hok; exact absurd hok (by simp)
          · have hnd : ¬(ctx.dry_run = true) := by simp [hdry]
            rw [if_neg hd, if_neg hnd] at hok
            rw [if_neg hd, if_neg hnd]
            cases failAt with
            | some fp =>
              exfalso
              revert hok
              cases fp <;> simp [save_state]
            | none =>
              refine ⟨by simp [save_state], newState, ?_⟩
              simp [save_state, fsSet, stateFile_ne_tempFile]

/-- C10: every RunContext the Scheduler builds for a due job has trigger
type `"scheduled"`, empty user arguments, and `dry_run = false` (the
dataclass default); hence a scheduled run that succeeds has persisted the
workflow's returned state — the scheduler path can never be a dry run. -/
theorem scheduler_context_never_dry (config : SchedulerConfig)
    (run_id : String) (triggered_at : Int) (iso : String) :
    (create_context config run_id triggered_at iso).trigger.type
      = "scheduled" ∧
    (create_context config run_id triggered_at iso).args = [] ∧
    (create_context config run_id triggered_at iso).dry_run = false ∧
    ∀ (reg : Registry) (fs : FS) (failAt : Option FailPoint),
      (Runner.run reg (create_context config run_id triggered_at iso) fs
        failAt).1 = .ok () →
      StoreOp.save ∈ (Runner.run reg
        (create_context config run_id triggered_at iso) fs failAt).2.2 ∧
      ∃ d : JValue, (Runner.run reg
          (create_context config run_id triggered_at iso) fs failAt).2.1
          (stateFile config.workflow) = some (.json (envelope d)) := by
  refine ⟨rfl, rfl, rfl, ?_⟩
  intro reg fs failAt hok
  exact runner_success_persists reg _ fs failAt rfl hok

/-! ### Cron / due-check theorems -/

/-- `t` (seconds UTC) is a cron fire instant: a whole minute whose local
wall-clock minute matches the expression. -/
def isFire (e : CronExpr) (off : Int) (t : Int) : Bool :=
  decide (t % 60 = 0) && e.matchesMinute (t / 60 + off)

theorem nextFireFromUTC_sound (e : CronExpr) (off : Int) :
    ∀ (fuel : Nat) (start u : Int),
      nextFireFromUTC e off fuel start = some u →
      e.matchesMinute (u + off) = true ∧ start ≤ u ∧
        ∀ v : Int, start ≤ v → v < u → e.matchesMinute (v + off) = false := by
  intro fuel
  induction fuel with
  | zero => intro start u h; simp [nextFireFromUTC] at h
  | succ n ih =>
    intro start u h
    by_cases hm : e.matchesMinute (start + off) = true
    · rw [nextFireFromUTC, if_pos hm] at h
      injection h with h'
      subst h'
      exact ⟨hm, le_refl _, fun v hv1 hv2 => absurd hv1 (not_le.mpr hv2)⟩
    · rw [nextFireFromUTC, if_neg hm] at h
      obtain ⟨h1, h2, h3⟩ := ih (start + 1) u h
      refine ⟨h1, by omega, fun v hv1 hv2 => ?_⟩
      rcases eq_or_lt_of_le hv1 with heq | hlt
      · subst heq; exact Bool.not_eq_true _ ▸ Bool.eq_false_iff.mpr hm
      · exact h3 v (by omega) hv2

/-- `nextFireSec` computes a fire instant strictly after `lastRun` with
no fire instant in between. -/
theorem nextFireSec_sound (e : CronExpr) (off lr nf : Int)
    (h : nextFireSec e off lr = some nf) :
    isFire e off nf = true ∧ lr < nf ∧
      ∀ t : Int, lr < t → t < nf → isFire e off t = false := by
  unfold nextFireSec at h
  cases hu : nextFireFromUTC e off searchHorizon (lr / 60 + 1) with
  | none => rw [hu] at h; cases h
  | some u =>
    rw [hu] at h
    injection h with h60
    obtain ⟨hm, hs, hmin⟩ := nextFireFromUTC_sound e off _ _ _ hu
    subst h60
    refine ⟨?_, by omega, ?_⟩
    · unfold isFire
      have h1 : (60 * u) % 60 = 0 := by omega
      have h2 : (60 * u) / 60 = u := by omega
      rw [h1, h2]
      simp [hm]
    · intro t ht1 ht2
      unfold isFire
      by_cases hz : t % 60 = 0
      · have hv : e.matchesMinute (t / 60 + off) = false := by
          apply hmin <;> omega
        simp [hv]
      · simp [hz]

/-- C2: the due-check computes the first cron fire time strictly after
`last_run` (epoch when absent) in the job's timezone, and reports the job
due exactly when `now` has reached it; in particular, for `"0 * * * *"`
in UTC with `last_run = 2024-01-01T00:00:00Z` the job is due at
`2024-01-01T01:00:00Z` and not due at `2024-01-01T00:59:59Z`. -/
theorem scheduler_due_check (e : CronExpr) (off lr now nf : Int)
    (h : nextFireSec e off lr = some nf) :
    (isFire e off nf = true ∧ lr < nf ∧
      ∀ t : Int, lr < t → t < nf → isFire e off t = false) ∧
    (should_run e off (some lr) now = true ↔ nf ≤ now) ∧
    should_run e off none now = should_run e off (some 0) now ∧
    should_run hourlyCron 0 (some 1704067200) 1704070800 = true ∧
    should_run hourlyCron 0 (some 1704067200) 1704070799 = false := by
  refine ⟨nextFireSec_sound e off lr nf h, ?_, rfl, by decide, by decide⟩
  simp [should_run, h]

theorem scheduler_due_check_witness :
    nextFireSec hourlyCron 0 1704067200 = some 1704070800 ∧
    should_run hourlyCron 0 (some 1704067200) 1704070800 = true ∧
    should_run hourlyCron 0 (some 1704067200) 1704070799 = false :=
  have h : nextFireSec hourlyCron 0 1704067200 = some 1704070800 := by
    decide
  ⟨h, (scheduler_due_check hourlyCron 0 1704067200 1704070800 1704070800
        h).2.2.2.1,
     (scheduler_due_check hourlyCron 0 1704067200 1704070799 1704070800
        h).2.2.2.2⟩

/-! ### Scheduler tick theorems -/

/-- The hourly job `"report"` used in concrete scheduler scenarios. -/
def hourlyJob : Job := ⟨⟨"report", "0 * * * *", "UTC"⟩, hourlyCron, 0⟩

/-- Ambient effects for the concrete tick at 2024-01-01T01:00:00Z. -/
def cexEnv : TickEnv :=
  ⟨fun _ => "run-1", fun _ => 1704070800,
   fun _ => "2024-01-01T01:00:00+00:00", fun _ => 1704070800⟩

/-- A cursor map holding 2024-01-01T00:00:00Z for every workflow. -/
def cexCursor : String → Option Int := fun _ => some 1704067200

/-- C1 (counterexample to the claim as stated): at tick time
2024-01-01T01:00:00Z with cursor 2024-01-01T00:00:00Z, a raising Runner
leaves the cursor unadvanced, and re-evaluating due-ness at the same tick
time fires the job again. -/
theorem cursor_not_advanced_on_failure :
    (tickJob cexEnv (fun _ => true) 1704070800 cexCursor hourlyJob).2
      = .ranFailed ∧
    (tickJob cexEnv (fun _ => true) 1704070800 cexCursor hourlyJob).1
      "report" = some 1704067200 ∧
    should_run hourlyCron 0
      ((tickJob cexEnv (fun _ => true) 1704070800 cexCursor hourlyJob).1
        "report") 1704070800 = true := by
  refine ⟨?_, ?_, ?_⟩ <;> decide

/-- C1 (amended): when a registered job fires during a tick, the
Scheduler advances its last-run cursor only if the Runner call returns
without raising; when the Runner raises, the per-job handler catches the
exception before the cursor update, the cursor is left unchanged, and the
job is due again at the same tick time. -/
theorem cursor_advances_only_on_success (env : TickEnv)
    (runnerRaises : RunContext → Bool) (now : Int)
    (lastRun : String → Option Int) (j : Job)
    (hDue : should_run j.cron j.tzOffset (lastRun j.config.workflow) now
      = true) :
    (runnerRaises (create_context j.config (env.runId j.config.workflow)
        (env.trigTime j.config.workflow) (env.trigIso j.config.workflow))
        = true →
      tickJob env runnerRaises now lastRun j = (lastRun, .ranFailed) ∧
      should_run j.cron j.tzOffset
        ((tickJob env runnerRaises now lastRun j).1 j.config.workflow) now
        = true) ∧
    (runnerRaises (create_context j.config (env.runId j.config.workflow)
        (env.trigTime j.config.workflow) (env.trigIso j.config.workflow))
        = false →
      (tickJob env runnerRaises now lastRun j).1 j.config.workflow
        = some (env.doneTime j.config.workflow) ∧
      (tickJob env runnerRaises now lastRun j).2 = .ranOk) := by
  constructor
  · intro hr
    have ht : tickJob env runnerRaises now lastRun j
        = (lastRun, .ranFailed) := by
      simp [tickJob, hDue, hr]
    exact ⟨ht, by rw [ht]; exact hDue⟩
  · intro hr
    simp [tickJob, hDue, hr]

theorem cursor_advances_only_on_success_witness :
    should_run hourlyJob.cron hourlyJob.tzOffset
      (cexCursor hourlyJob.config.workflow) 1704070800 = true ∧
    tickJob cexEnv (fun _ => true) 1704070800 cexCursor hourlyJob
      = (cexCursor, .ranFailed) ∧
    should_run hourlyJob.cron hourlyJob.tzOffset
      ((tickJob cexEnv (fun _ => true) 1704070800 cexCursor hourlyJob).1
        hourlyJob.config.workflow) 1704070800 = true :=
  have hDue : should_run hourlyJob.cron hourlyJob.tzOffset
      (cexCursor hourlyJob.config.workflow) 1704070800 = true := by decide
  have h := (cursor_advances_only_on_success cexEnv (fun _ => true)
      1704070800 cexCursor hourlyJob hDue).1 rfl
  ⟨hDue, h.1, h.2⟩

theorem tick_events_cover (env : TickEnv) (rr : RunContext → Bool)
    (now : Int) :
    ∀ (jobs : List Job) (lastRun : String → Option Int),
      (tick env rr now jobs lastRun).2.map Prod.fst
        = jobs.map fun j => j.config.workflow := by
  intro jobs
  induction jobs with
  | nil => intro lastRun; rfl
  | cons j rest ih => intro lastRun; simp [tick, ih]

theorem schedLoop_ticks (rr : RunContext → Bool) (jobs : List Job) :
    ∀ (ticks : List (Int × TickEnv)) (lastRun : String → Option Int),
      (schedLoop rr jobs ticks lastRun).2.length = ticks.length ∧
      ∀ evs ∈ (schedLoop rr jobs ticks lastRun).2,
        evs.map Prod.fst = jobs.map fun j => j.config.workflow := by
  intro ticks
  induction ticks with
  | nil => intro lastRun; exact ⟨rfl, by simp [schedLoop]⟩
  | cons t rest ih =>
    intro lastRun
    obtain ⟨t1, t2⟩ := t
    constructor
    · simp [schedLoop, (ih _).1]
    · intro evs hevs
      simp only [schedLoop, List.mem_cons] at hevs
      rcases hevs with h | h
      · subst h; exact tick_events_cover t2 rr t1 jobs lastRun
      · exact (ih _).2 evs h

/-- C9: per-job failures are contained: every tick of the loop processes
every registered job in order (neither the per-tick iteration nor the
loop stops at a failing job), a failed job's step leaves the whole cursor
map unchanged, and no job's step touches another job's cursor entry. -/
theorem scheduler_per_job_isolation (rr : RunContext → Bool)
    (jobs : List Job) (ticks : List (Int × TickEnv))
    (lastRun : String → Option Int) :
    (schedLoop rr jobs ticks lastRun).2.length = ticks.length ∧
    (∀ evs ∈ (schedLoop rr jobs ticks lastRun).2,
      evs.map Prod.fst = jobs.map fun j => j.config.workflow) ∧
    (∀ (env : TickEnv) (now : Int) (lr : String → Option Int) (j : Job),
      (tickJob env rr now lr j).2 = .ranFailed →
      (tickJob env rr now lr j).1 = lr) ∧
    (∀ (env : TickEnv) (now : Int) (lr : String → Option Int) (j : Job)
      (w : String), w ≠ j.config.workflow →
      (tickJob env rr now lr j).1 w = lr w) := by
  refine ⟨(schedLoop_ticks rr jobs ticks lastRun).1,
    (schedLoop_ticks rr jobs ticks lastRun).2, ?_, ?_⟩
  · intro env now lr j h
    by_cases h1 : should_run j.cron j.tzOffset (lr j.config.workflow) now
        = true
    · by_cases h2 : rr (create_context j.config
          (env.runId j.config.workflow) (env.trigTime j.config.workflow)
          (env.trigIso j.config.workflow)) = true
      · simp [tickJob, h1, h2]
      · simp [tickJob, h1, h2] at h
    · simp [tickJob, h1] at h
  · intro env now lr j w hw
    by_cases h1 : should_run j.cron j.tzOffset (lr j.config.workflow) now
        = true
    · by_cases h2 : rr (create_context j.config
          (env.runId j.config.workflow) (env.trigTime j.config.workflow)
          (env.trigIso j.config.workflow)) = true
      · simp [tickJob, h1, h2]
      · simp [tickJob, h1, h2, hw]
    · simp [tickJob, h1]

theorem scheduler_per_job_isolation_witness :
    (schedLoop (fun _ => true) [hourlyJob] [(1704070800, cexEnv)]
      cexCursor).2.length = 1 ∧
    [("report", JobOutcome.ranFailed)].map Prod.fst
      = [hourlyJob].map (fun j => j.config.workflow) ∧
    (tickJob cexEnv (fun _ => true) 1704070800 cexCursor hourlyJob).1
      = cexCursor ∧
    (tickJob cexEnv (fun _ => true) 1704070800 cexCursor hourlyJob).1
      "other" = cexCursor "other" :=
  have t := scheduler_per_job_isolation (fun _ => true) [hourlyJob]
    [(1704070800, cexEnv)] cexCursor
  ⟨t.1, t.2.1 [("report", .ranFailed)] (by decide),
   t.2.2.1 cexEnv 1704070800 cexCursor hourlyJob (by decide),
   t.2.2.2 cexEnv 1704070800 cexCursor hourlyJob "other" (by decide)⟩

/-! ### Witness fixtures and remaining witnesses -/

/-- A registry resolving every name to a module whose run returns `{}`. -/
def okRegistry : Registry := fun _ => some ⟨some fun _ _ => .ok (.obj [])⟩

/-- The empty registry: no workflow resolves. -/
def noRegistry : Registry := fun _ => none

/-- The empty state directory. -/
def emptyFS : FS := fun _ => none

/-- A manual dry-run context. -/
def dryCtx : RunContext :=
  { workflow := "report", trigger := ⟨"manual", []⟩, run_id := "run-2",
    started_at := 0, args := [], dry_run := true }

/-- State file for `"report"` with unparseable content. -/
def fsInvalid : FS := fun p =>
  if p = stateFile "report" then some .invalid else none

/-- State file for `"report"` holding a non-object document. -/
def fsNotObj : FS := fun p =>
  if p = stateFile "report" then some (.json (.num 3)) else none

/-- State file for `"report"` missing the `version` field. -/
def fsNoVersion : FS := fun p =>
  if p = stateFile "report" then
    some (.json (.obj [("data", .obj [])])) else none

/-- State file for `"report"` missing the `data` field. -/
def fsNoData : FS := fun p =>
  if p = stateFile "report" then
    some (.json (.obj [("version", .num 1)])) else none

/-- State file for `"report"` with the unrecognized version `2`. -/
def fsVersion2 : FS := fun p =>
  if p = stateFile "report" then
    some (.json (.obj
      [("version", .num 2), ("data", .obj [("k", .num 1)])]))
  else none

theorem load_state_corrupt_detection_witness :
    load_state emptyFS "report" = .ok (.obj []) ∧
    load_state fsInvalid "report" = .error .jsonDecode ∧
    load_state fsNotObj "report" = .error .notObject ∧
    load_state fsNoVersion "report" = .error .missingVersion ∧
    load_state fsNoData "report" = .error .missingData :=
  have t1 := (load_state_corrupt_detection emptyFS "report").1 rfl
  have t2 := (load_state_corrupt_detection fsInvalid "report").2.1 rfl
  have t3 := (load_state_corrupt_detection fsNotObj "report").2.2.1
    (.num 3) rfl rfl
  have t4 := (load_state_corrupt_detection fsNoVersion "report").2.2.2.1
    [("data", .obj [])] rfl rfl
  have t5 := (load_state_corrupt_detection fsNoData "report").2.2.2.2
    [("version", .num 1)] rfl rfl rfl
  ⟨t1, t2, t3, t4, t5⟩

theorem load_state_version_presence_only_witness :
    load_state fsVersion2 "report" = .ok (.obj [("k", .num 1)]) ∧
    load_state fsNoVersion "report" = .error .missingVersion :=
  have t1 := (load_state_version_presence_only fsVersion2 "report"
      [("version", .num 2), ("data", .obj [("k", .num 1)])] rfl).2
      (.obj [("k", .num 1)]) rfl rfl
  have t2 := (load_state_version_presence_only fsNoVersion "report"
      [("data", .obj [])] rfl).1 rfl
  ⟨t1, t2⟩

theorem runner_dry_run_pure_witness :
    dryCtx.dry_run = true ∧
    (Runner.run okRegistry dryCtx emptyFS none).2.1 = emptyFS ∧
    StoreOp.save ∉ (Runner.run okRegistry dryCtx emptyFS none).2.2 :=
  have h := runner_dry_run_pure okRegistry dryCtx emptyFS none rfl
  ⟨rfl, h.1, h.2⟩

theorem runner_unknown_workflow_witness :
    noRegistry dryCtx.workflow = none ∧
    Runner.run noRegistry dryCtx emptyFS none
      = (.error .workflowNotFound, emptyFS, []) :=
  ⟨rfl, runner_unknown_workflow noRegistry dryCtx emptyFS none rfl⟩

theorem scheduler_context_never_dry_witness :
    (create_context ⟨"report", "0 * * * *", "UTC"⟩ "run-1" 1704070800
      "2024-01-01T01:00:00+00:00").dry_run = false ∧
    StoreOp.save ∈ (Runner.run okRegistry
      (create_context ⟨"report", "0 * * * *", "UTC"⟩ "run-1" 1704070800
        "2024-01-01T01:00:00+00:00") emptyFS none).2.2 ∧
    ∃ d : JValue, (Runner.run okRegistry
        (create_context ⟨"report", "0 * * * *", "UTC"⟩ "run-1" 1704070800
          "2024-01-01T01:00:00+00:00") emptyFS none).2.1
        (stateFile "report") = some (.json (envelope d)) :=
  have h := (scheduler_context_never_dry ⟨"report", "0 * * * *", "UTC"⟩
      "run-1" 1704070800 "2024-01-01T01:00:00+00:00").2.2.2
      okRegistry emptyFS none rfl
  ⟨rfl, h.1, h.2⟩

end Arugot
